import Mathlib

/-!
Verification of the address-resolution and IP-version-negotiation subsystem
of cmping (src/cli.c): target collection, family negotiation, multicast
resolution, local-address extraction and address materialization.

Socket addresses are modelled as a family tag plus numeric address and port;
the name resolver is an explicit function parameter (it is an external
collaborator). Fatal errors (errx/err with exit status 1) are modelled with
an Except monad carrying a structured error value.
-/

namespace Cmping

/-- Address family of one resolver candidate: AF_INET, AF_INET6, or any
other value of sa_family (the C code defends against families outside
these two). -/
inductive Fam where
  | v4
  | v6
  | other
deriving DecidableEq, Repr

/-- One socket address (sockaddr): family, numeric address
(32-bit value for v4, 128-bit for v6), and port. -/
structure SockAddr where
  fam : Fam
  addr : Nat
  port : Nat
deriving DecidableEq, Repr

/-- One entry of the target list (struct ai_item): the user-typed label,
the resolver-owned candidate list, and the materialized concrete address
(none models the zero-initialized, not-yet-set sas field). -/
structure AiItem where
  host_name : String
  ai : List SockAddr
  sas : Option SockAddr
deriving DecidableEq, Repr, Inhabited

/-- Structured fatal errors. Every one of them corresponds to an errx(1,...)
or err(1,...) call in the source: the process writes a diagnostic naming the
arguments carried here and exits with status 1. -/
inductive Err where
  | resolveFail (label : String)
  | loopback (label : String)
  | noTargets
  | mcastNoFamily (label : String)
  | hostNoFamily (host : String)
  | mcastFamilyMismatch (mcastVer : Int) (host : String) (hostVer : Int)
  | pivotMismatch (host : String) (pivot : Int)
  | notMcast (label : String)
  | internal
deriving DecidableEq, Repr

/-- Exit status of the process for each fatal error: every error call site in
src/cli.c passes status 1 to errx/err (or calls exit(1)). -/
def Err.exitCode : Err → Nat
  | .resolveFail _ => 1
  | .loopback _ => 1
  | .noTargets => 1
  | .mcastNoFamily _ => 1
  | .hostNoFamily _ => 1
  | .mcastFamilyMismatch _ _ _ => 1
  | .pivotMismatch _ _ => 1
  | .notMcast _ => 1
  | .internal => 1

/-- The Name Resolver collaborator: label and family hint to candidate list.
The session port is fixed per run and folded into the candidates. -/
abbrev Resolver := String → Int → List SockAddr

/-- Modelled from the spec: af_ai_supported_ipv (addrfunc.c, not under src/)
reports the IP version of a single candidate: 4 for AF_INET, 6 for AF_INET6,
-1 otherwise. -/
def af_ai_supported_ipv (a : SockAddr) : Int :=
  match a.fam with
  | .v4 => 4
  | .v6 => 6
  | .other => -1

/-- Modelled from the spec: af_ai_deep_supported_ipv (addrfunc.c, not under
src/) examines every candidate of a label across both families and reports 0
if at least one candidate of each family exists, the single family if only
candidates of only one family exist, and -1 (failure) if no usable candidate
exists at all. -/
def af_ai_deep_supported_ipv (l : List SockAddr) : Int :=
  let has4 := l.any (fun a => decide (a.fam = Fam.v4))
  let has6 := l.any (fun a => decide (a.fam = Fam.v6))
  if has4 && has6 then 0
  else if has4 then 4
  else if has6 then 6
  else -1

/-- Modelled from the spec: loopback test for one address (127.0.0.0/8 for
IPv4, ::1 for IPv6). -/
def af_is_sa_loopback (a : SockAddr) : Bool :=
  match a.fam with
  | .v4 => decide (a.addr / 2 ^ 24 = 127)
  | .v6 => decide (a.addr = 1)
  | .other => false

/-- Modelled from the spec: af_ai_deep_is_loopback (addrfunc.c, not under
src/) holds when the resolved candidate set contains a loopback candidate
(the set was already restricted to the requested family by the resolver). -/
def af_ai_deep_is_loopback (l : List SockAddr) : Bool :=
  l.any af_is_sa_loopback

/-- Modelled from the spec: multicast test for one address by its own family
(224.0.0.0/4 for IPv4, ff00::/8 for IPv6). -/
def af_is_sa_mcast (a : SockAddr) : Bool :=
  match a.fam with
  | .v4 => decide (224 ≤ a.addr / 2 ^ 24 ∧ a.addr / 2 ^ 24 ≤ 239)
  | .v6 => decide (a.addr / 2 ^ 120 = 255)
  | .other => false

/-- Deep match between two candidate sets: some concrete address occurs in
both (comparison across every candidate, not just the first). -/
def ai_deep_eq_match (x y : List SockAddr) : Bool :=
  x.any (fun a => y.any (fun b => decide (a = b)))

/-- Modelled from the spec: af_is_ai_in_list (addrfunc.c, not under src/)
tests whether the resolved candidate set deep-matches, by concrete address,
an address already present in the list. -/
def af_is_ai_in_list (ai_res : List SockAddr) (l : List AiItem) : Bool :=
  l.any (fun it => ai_deep_eq_match ai_res it.ai)

/-- Modelled from the spec: af_host_to_ai (addrfunc.c, not under src/)
resolves a label with a family hint and fails with a resolution error when
the label cannot be resolved at all. -/
def af_host_to_ai (resolve : Resolver) (host : String) (ip_ver : Int) :
    Except Err (List SockAddr) :=
  if resolve host ip_ver = [] then Except.error (Err.resolveFail host)
  else Except.ok (resolve host ip_ver)

/-- Modelled from the spec: the fixed default IPv4 multicast group literal
(omping.h, not under src/). -/
def DEFAULT_MCAST4_ADDR : String := "232.43.211.234"

/-- Modelled from the spec: the distinct fixed default IPv6 multicast group
literal (omping.h, not under src/). -/
def DEFAULT_MCAST6_ADDR : String := "ff3e::4321:1234"

/-- Loop body of parse_remote_addrs (src/cli.c lines 507-531): resolve each
argument; skip it silently when its candidate set is already in the list;
reject loopback; otherwise append a fresh item (sas zero-initialized). -/
def pra_loop (resolve : Resolver) (ip_ver : Int) :
    List String → List AiItem → Except Err (List AiItem)
  | [], acc => Except.ok acc
  | a :: rest, acc =>
    match af_host_to_ai resolve a ip_ver with
    | Except.error e => Except.error e
    | Except.ok ai_res =>
      if af_is_ai_in_list ai_res acc then pra_loop resolve ip_ver rest acc
      else if af_ai_deep_is_loopback ai_res then Except.error (Err.loopback a)
      else pra_loop resolve ip_ver rest
        (acc ++ [{ host_name := a, ai := ai_res, sas := none }])

/-- parse_remote_addrs (src/cli.c lines 496-540): build the deduplicated
target list from the positional arguments; fewer than one collected target
is a usage error. -/
def parse_remote_addrs (resolve : Resolver) (argv : List String) (ip_ver : Int) :
    Except Err (List AiItem) :=
  match pra_loop resolve ip_ver argv [] with
  | Except.error e => Except.error e
  | Except.ok l =>
    if l.length < 1 then Except.error Err.noTargets
    else Except.ok l

/-- Mcast-branch check loop of return_ip_ver (src/cli.c lines 586-599):
every target must deep-support 0 or the multicast family; -1 and strict
mismatch are fatal. -/
def riv_check_mcast (mv : Int) : List AiItem → Except Err Unit
  | [] => Except.ok ()
  | aip :: rest =>
    let r := af_ai_deep_supported_ipv aip.ai
    if r = -1 then Except.error (Err.hostNoFamily aip.host_name)
    else if r ≠ 0 ∧ r ≠ mv then
      Except.error (Err.mcastFamilyMismatch mv aip.host_name r)
    else riv_check_mcast mv rest

/-- First scan loop of return_ip_ver (src/cli.c lines 605-621): walk the
targets until one deep-supports a single version; -1 is fatal; 0 results
when every target deep-supports both families. -/
def riv_find_pivot : List AiItem → Except Err Int
  | [] => Except.ok 0
  | aip :: rest =>
    let r := af_ai_deep_supported_ipv aip.ai
    if r = -1 then Except.error (Err.hostNoFamily aip.host_name)
    else if r ≠ 0 then Except.ok r
    else riv_find_pivot rest

/-- Second scan loop of return_ip_ver (src/cli.c lines 636-651): every
target must deep-support 0 or the pivot version; -1 and strict mismatch are
fatal. -/
def riv_check_pivot (pv : Int) : List AiItem → Except Err Unit
  | [] => Except.ok ()
  | aip :: rest =>
    let r := af_ai_deep_supported_ipv aip.ai
    if r = -1 then Except.error (Err.hostNoFamily aip.host_name)
    else if r ≠ 0 ∧ r ≠ pv then
      Except.error (Err.pivotMismatch aip.host_name pv)
    else riv_check_pivot pv rest

/-- Step-3 tail of return_ip_ver (src/cli.c lines 605-656), shared by the
no-multicast path and the dual-family-multicast fall-through. -/
def return_ip_ver_nomcast (ai_list : List AiItem) : Except Err Int :=
  match riv_find_pivot ai_list with
  | Except.error e => Except.error e
  | Except.ok pv =>
    if pv = 0 then Except.ok 0
    else
      match riv_check_pivot pv ai_list with
      | Except.error e => Except.error e
      | Except.ok _ => Except.ok pv

/-- return_ip_ver (src/cli.c lines 554-657): the IP Version Negotiator. -/
def return_ip_ver (resolve : Resolver) (ip_ver : Int) (mcast_addr : Option String)
    (ai_list : List AiItem) : Except Err Int :=
  if ip_ver ≠ 0 then Except.ok ip_ver
  else
    match mcast_addr with
    | none => return_ip_ver_nomcast ai_list
    | some m =>
      match af_host_to_ai resolve m ip_ver with
      | Except.error e => Except.error e
      | Except.ok ai_res =>
        let mcast_ipver := af_ai_deep_supported_ipv ai_res
        if mcast_ipver = -1 then Except.error (Err.mcastNoFamily m)
        else if mcast_ipver ≠ 0 then
          match riv_check_mcast mcast_ipver ai_list with
          | Except.error e => Except.error e
          | Except.ok _ => Except.ok mcast_ipver
        else return_ip_ver_nomcast ai_list

/-- conv_params_mcast (src/cli.c lines 418-467): the Multicast Resolver.
Substitute the per-family default when no label was given (any other family
value, including 0, is a fatal internal error); resolve; pick the first
candidate of the negotiated family (none is a fatal internal error); reject
a chosen address that is not multicast. -/
def conv_params_mcast (resolve : Resolver) (ip_ver : Int)
    (mcast_addr_s : Option String) : Except Err AiItem :=
  match (match mcast_addr_s with
         | none =>
           if ip_ver = 4 then Except.ok DEFAULT_MCAST4_ADDR
           else if ip_ver = 6 then Except.ok DEFAULT_MCAST6_ADDR
           else Except.error Err.internal
         | some s => Except.ok s) with
  | Except.error e => Except.error e
  | Except.ok s =>
    match af_host_to_ai resolve s ip_ver with
    | Except.error e => Except.error e
    | Except.ok ai_res =>
      match ai_res.find? (fun a => decide (af_ai_supported_ipv a = ip_ver)) with
      | none => Except.error Err.internal
      | some a =>
        if af_is_sa_mcast a then
          Except.ok { host_name := s, ai := [], sas := some a }
        else Except.error (Err.notMcast s)

/-- conv_list_addrs (src/cli.c lines 327-357): the Address Materializer.
For each target, copy the first candidate of the negotiated family into sas
and release the candidate list; a target with no matching candidate is left
untouched (sas stays zero-initialized; the C loop simply falls through). -/
def conv_list_addrs (ip_ver : Int) (l : List AiItem) : List AiItem :=
  l.map fun it =>
    match it.ai.find? (fun a => decide (af_ai_supported_ipv a = ip_ver)) with
    | some a => { it with sas := some a, ai := [] }
    | none => it

/-- One local interface address (the relevant part of struct ifaddrs). -/
structure IfAddr where
  fam : Fam
  addr : Nat
deriving DecidableEq, Repr

/-- conv_local_addr (src/cli.c lines 363-413): the Local Address Extractor.
The matched local target is given by its position i in the list (the C code
holds a pointer to the node). An interface family outside {v4, v6} is a
fatal internal error. The local address takes the interface bytes plus the
port of the resolved address of the matched target; single_addr is set exactly
when the list has one entry, and otherwise the matched entry is removed. -/
def conv_local_addr (l : List AiItem) (i : Nat) (ifa : IfAddr) :
    Except Err (AiItem × Bool × List AiItem) :=
  let ai_local := l.getD i default
  if ifa.fam = Fam.other then Except.error Err.internal
  else
    let port := (ai_local.sas.map SockAddr.port).getD 0
    let local_addr : AiItem :=
      { host_name := ai_local.host_name, ai := [],
        sas := some { fam := ifa.fam, addr := ifa.addr, port := port } }
    if l.length = 1 then Except.ok (local_addr, true, l)
    else Except.ok (local_addr, false, l.eraseIdx i)

/-- Target-collection and negotiation steps of cli_parse in order
(src/cli.c lines 277-278): parse_remote_addrs runs strictly before
return_ip_ver, and a fatal error in the former prevents the latter. -/
def cli_parse_addrs (resolve : Resolver) (ip_ver : Int)
    (mcast_addr_s : Option String) (argv : List String) :
    Except Err (List AiItem × Int) :=
  match parse_remote_addrs resolve argv ip_ver with
  | Except.error e => Except.error e
  | Except.ok l =>
    match return_ip_ver resolve ip_ver mcast_addr_s l with
    | Except.error e => Except.error e
    | Except.ok v => Except.ok (l, v)

/-- Constant resolver used to instantiate universally quantified statements
at a concrete input. -/
def resolver0 : Resolver := fun _ _ => []

/-- Resolver mapping every label to one non-multicast, non-loopback IPv4
address, used to instantiate statements at a concrete input. -/
def resolver1 : Resolver := fun _ _ => [{ fam := Fam.v4, addr := 0, port := 0 }]

/-- Concrete target with a resolved IPv4 address, used for instantiation. -/
def itemA : AiItem :=
  { host_name := "a", ai := [{ fam := Fam.v4, addr := 3, port := 7 }],
    sas := some { fam := Fam.v4, addr := 3, port := 7 } }

/-- Second concrete target with a distinct resolved IPv4 address. -/
def itemB : AiItem :=
  { host_name := "b", ai := [{ fam := Fam.v4, addr := 4, port := 7 }],
    sas := some { fam := Fam.v4, addr := 4, port := 7 } }

/-- Concrete IPv4 local interface address, used for instantiation. -/
def ifa4 : IfAddr := { fam := Fam.v4, addr := 3 }

/-- Claim C3: with a user-forced family (4 or 6), return_ip_ver returns that
family unchanged, for every resolver, multicast label and target list: the
multicast label is never resolved and no supported families of targets are
examined. -/
theorem return_ip_ver_forced (resolve : Resolver) (m : Option String)
    (l : List AiItem) (ip_ver : Int) (h : ip_ver = 4 ∨ ip_ver = 6) :
    return_ip_ver resolve ip_ver m l = Except.ok ip_ver := by
  rcases h with h | h <;> subst h <;> rfl

/-- Witness for C3 at family 4, a concrete multicast label and the empty
list. -/
theorem return_ip_ver_forced_witness :
    ((4 : Int) = 4 ∨ (4 : Int) = 6) ∧
      return_ip_ver resolver0 4 (some "mcast") [] = Except.ok 4 :=
  ⟨Or.inl rfl, return_ip_ver_forced resolver0 (some "mcast") [] 4 (Or.inl rfl)⟩

/-- Claim C5: with no multicast label, conv_params_mcast behaves exactly as
if the fixed IPv4 default literal had been supplied when the negotiated
family is 4, and the distinct IPv6 default when it is 6; every other family
value with no label is a fatal generic internal error. -/
theorem conv_params_mcast_default (resolve : Resolver) :
    conv_params_mcast resolve 4 none =
        conv_params_mcast resolve 4 (some DEFAULT_MCAST4_ADDR) ∧
    conv_params_mcast resolve 6 none =
        conv_params_mcast resolve 6 (some DEFAULT_MCAST6_ADDR) ∧
    DEFAULT_MCAST4_ADDR ≠ DEFAULT_MCAST6_ADDR ∧
    ∀ ip_ver : Int, ip_ver ≠ 4 → ip_ver ≠ 6 →
      conv_params_mcast resolve ip_ver none = Except.error Err.internal := by
  refine ⟨rfl, rfl, by decide, ?_⟩
  intro ip_ver h4 h6
  simp [conv_params_mcast, h4, h6]

/-- Witness for C5 at the unconstrained family 0 with no label. -/
theorem conv_params_mcast_default_witness :
    conv_params_mcast resolver0 0 none = Except.error Err.internal :=
  (conv_params_mcast_default resolver0).2.2.2 0 (by decide) (by decide)

/-- Claim C9: whenever the candidate chosen for the multicast label is not a
multicast address for its family, conv_params_mcast fails fatally naming the
bad label, with exit status 1, for every negotiated family. -/
theorem conv_params_mcast_not_mcast (resolve : Resolver) (ip_ver : Int)
    (s : String) (chosen : SockAddr)
    (hfind : (resolve s ip_ver).find?
        (fun a => decide (af_ai_supported_ipv a = ip_ver)) = some chosen)
    (hnm : af_is_sa_mcast chosen = false) :
    conv_params_mcast resolve ip_ver (some s) = Except.error (Err.notMcast s) ∧
      (Err.notMcast s).exitCode = 1 := by
  refine ⟨?_, rfl⟩
  have hne : resolve s ip_ver ≠ [] := by
    intro h
    rw [h] at hfind
    simp at hfind
  simp [conv_params_mcast, af_host_to_ai, hne, hfind, hnm]

/-- Witness for C9: a label resolving to the non-multicast address 0.0.0.0
is rejected under negotiated family 4. -/
theorem conv_params_mcast_not_mcast_witness :
    conv_params_mcast resolver1 4 (some "badgroup") =
        Except.error (Err.notMcast "badgroup") ∧
      (Err.notMcast "badgroup").exitCode = 1 :=
  conv_params_mcast_not_mcast resolver1 4 "badgroup"
    { fam := Fam.v4, addr := 0, port := 0 } (by rfl) (by rfl)

/-- Concrete target whose only candidate is IPv6, materialized under family
4: the C loop finds no match and falls through without any error. -/
def c4item : AiItem :=
  { host_name := "h", ai := [{ fam := Fam.v6, addr := 2, port := 0 }], sas := none }

/-- Counterexample to C4: conv_list_addrs does not fail fatally on a target
with no candidate of the negotiated family; it returns normally and leaves
the target in the list with its resolved address still unset. -/
theorem conv_list_addrs_no_match_counterexample :
    conv_list_addrs 4 [c4item] = [c4item] ∧
      (conv_list_addrs 4 [c4item]).map AiItem.sas = [none] := by
  exact ⟨rfl, rfl⟩

/-- Amended C4: conv_list_addrs preserves the list length; a target whose
candidates contain no candidate of the negotiated family is left exactly as
it was (resolved address still unset, candidates retained) with no fatal
error, and a target with a matching candidate gets the first such candidate
as its resolved address with its candidate list released. -/
theorem conv_list_addrs_materialize (ip_ver : Int) (l : List AiItem) (i : Nat)
    (h : i < l.length) :
    (conv_list_addrs ip_ver l).length = l.length ∧
    ((l.getD i default).ai.find?
        (fun a => decide (af_ai_supported_ipv a = ip_ver)) = none →
      (conv_list_addrs ip_ver l).getD i default = l.getD i default) ∧
    (∀ a, (l.getD i default).ai.find?
        (fun a => decide (af_ai_supported_ipv a = ip_ver)) = some a →
      (conv_list_addrs ip_ver l).getD i default =
        { host_name := (l.getD i default).host_name, ai := [], sas := some a }) := by
  have hlen : (conv_list_addrs ip_ver l).length = l.length := by
    simp [conv_list_addrs]
  have hstep : (conv_list_addrs ip_ver l).getD i default =
      (match (l.getD i default).ai.find?
          (fun a => decide (af_ai_supported_ipv a = ip_ver)) with
       | some a => { l.getD i default with sas := some a, ai := [] }
       | none => l.getD i default) := by
    have hm : i < (conv_list_addrs ip_ver l).length := by rw [hlen]; exact h
    rw [List.getD_eq_getElem _ _ hm, List.getD_eq_getElem _ _ h]
    simp [conv_list_addrs]
  refine ⟨hlen, ?_, ?_⟩
  · intro hnone
    rw [hstep, hnone]
  · intro a hsome
    rw [hstep, hsome]

/-- Witness for C4 amended: a one-element list whose target has no IPv4
candidate passes through unchanged. -/
theorem conv_list_addrs_materialize_witness :
    (conv_list_addrs 4 [itemB, c4item]).length = [itemB, c4item].length ∧
      (conv_list_addrs 4 [itemB, c4item]).getD 1 default =
        [itemB, c4item].getD 1 default := by
  have h := conv_list_addrs_materialize 4 [itemB, c4item] 1 (by decide)
  exact ⟨h.1, h.2.1 (by rfl)⟩

/-- Socket address built by conv_local_addr: the interface bytes plus the
port of the resolved address of the matched target. -/
def local_sa_of (l : List AiItem) (i : Nat) (ifa : IfAddr) : SockAddr :=
  { fam := ifa.fam, addr := ifa.addr, port := ((l.getD i default).sas.map SockAddr.port).getD 0 }

/-- Local address built by conv_local_addr from the matched target at
position i and the interface address. -/
def local_addr_of (l : List AiItem) (i : Nat) (ifa : IfAddr) : AiItem :=
  { host_name := (l.getD i default).host_name, ai := [], sas := some (local_sa_of l i ifa) }

/-- Claim C6: if the target list has exactly one entry, conv_local_addr sets
the single-target flag and leaves the list intact; with more than one entry
the flag is unset and the matched local entry (at position i) is removed,
leaving exactly the other entries in order (length N - 1). -/
theorem conv_local_addr_single_multi (l : List AiItem) (i : Nat) (ifa : IfAddr)
    (hfam : ifa.fam ≠ Fam.other) (hi : i < l.length) :
    (l.length = 1 → ∃ la, conv_local_addr l i ifa = Except.ok (la, true, l)) ∧
    (1 < l.length → ∃ la,
      conv_local_addr l i ifa =
          Except.ok (la, false, l.take i ++ l.drop (i + 1)) ∧
        (l.take i ++ l.drop (i + 1)).length = l.length - 1) := by
  constructor
  · intro h1
    have heq : conv_local_addr l i ifa =
        Except.ok (local_addr_of l i ifa, true, l) := by
      simp [conv_local_addr, local_addr_of, local_sa_of, hfam, h1]
    exact ⟨_, heq⟩
  · intro hgt
    have hne : ¬ l.length = 1 := by omega
    have heq : conv_local_addr l i ifa =
        Except.ok (local_addr_of l i ifa, false, l.take i ++ l.drop (i + 1)) := by
      simp [conv_local_addr, local_addr_of, local_sa_of, hfam, hne, List.eraseIdx_eq_take_drop_succ]
    refine ⟨_, heq, ?_⟩
    simp only [List.length_append, List.length_take, List.length_drop]
    omega

/-- Witness for C6: single-entry list keeps its entry with the flag set;
two-entry list drops the matched entry at position 1, keeping the other. -/
theorem conv_local_addr_single_multi_witness :
    (∃ la, conv_local_addr [itemA] 0 ifa4 = Except.ok (la, true, [itemA])) ∧
    ∃ la, conv_local_addr [itemA, itemB] 1 ifa4 =
        Except.ok (la, false, [itemA, itemB].take 1 ++ [itemA, itemB].drop 2) ∧
      ([itemA, itemB].take 1 ++ [itemA, itemB].drop 2).length =
        [itemA, itemB].length - 1 := by
  refine ⟨(conv_local_addr_single_multi [itemA] 0 ifa4 (by decide) (by decide)).1 rfl, ?_⟩
  exact (conv_local_addr_single_multi [itemA, itemB] 1 ifa4 (by decide) (by decide)).2
    (by decide)

/-- Helper: a candidate set whose deep-supported family is 0 is nonempty. -/
theorem ne_nil_of_dsf_eq_zero (s : List SockAddr)
    (h : af_ai_deep_supported_ipv s = 0) : s ≠ [] := by
  intro hs
  rw [hs] at h
  exact absurd h (by decide)

/-- Helper: the mcast-branch check loop succeeds when every target
deep-supports 0 or the multicast family. -/
theorem riv_check_mcast_ok (mv : Int) (l : List AiItem) (hmv : mv ≠ -1)
    (h : ∀ it ∈ l, af_ai_deep_supported_ipv it.ai = 0 ∨
      af_ai_deep_supported_ipv it.ai = mv) :
    riv_check_mcast mv l = Except.ok () := by
  induction l with
  | nil => rfl
  | cons x rest ih =>
    have hx := h x (List.mem_cons_self x rest)
    have hrec := ih (fun it hit => h it (List.mem_cons_of_mem x hit))
    rcases hx with hx | hx <;> simp [riv_check_mcast, hx, hmv, hrec]

/-- Helper: the mcast-branch check loop stops with a family-mismatch error at
the first target that strictly supports a different family. -/
theorem riv_check_mcast_err (mv : Int) (pre post : List AiItem) (u : AiItem)
    (hpre : ∀ it ∈ pre, af_ai_deep_supported_ipv it.ai = 0 ∨
      af_ai_deep_supported_ipv it.ai = mv)
    (hmv : mv ≠ -1)
    (hu1 : af_ai_deep_supported_ipv u.ai ≠ -1)
    (hu : ¬(af_ai_deep_supported_ipv u.ai = 0 ∨
      af_ai_deep_supported_ipv u.ai = mv)) :
    riv_check_mcast mv (pre ++ u :: post) =
      Except.error (Err.mcastFamilyMismatch mv u.host_name
        (af_ai_deep_supported_ipv u.ai)) := by
  push_neg at hu
  induction pre with
  | nil => simp [riv_check_mcast, hu1, hu.1, hu.2]
  | cons x rest ih =>
    have hx := hpre x (List.mem_cons_self x rest)
    have hrec := ih (fun it hit => hpre it (List.mem_cons_of_mem x hit))
    rcases hx with hx | hx <;> simp [riv_check_mcast, hx, hmv, hrec]

/-- Helper: the pivot scan returns 0 when every target deep-supports both
families. -/
theorem riv_find_pivot_all0 (l : List AiItem)
    (h : ∀ it ∈ l, af_ai_deep_supported_ipv it.ai = 0) :
    riv_find_pivot l = Except.ok 0 := by
  induction l with
  | nil => rfl
  | cons x rest ih =>
    have hx := h x (List.mem_cons_self x rest)
    have hrec := ih (fun it hit => h it (List.mem_cons_of_mem x hit))
    simp [riv_find_pivot, hx, hrec]

/-- Helper: the pivot scan returns the deep-supported family of the first
target whose deep-supported family is neither 0 nor -1. -/
theorem riv_find_pivot_found (pre post : List AiItem) (t : AiItem)
    (hpre : ∀ it ∈ pre, af_ai_deep_supported_ipv it.ai = 0)
    (ht0 : af_ai_deep_supported_ipv t.ai ≠ 0)
    (ht1 : af_ai_deep_supported_ipv t.ai ≠ -1) :
    riv_find_pivot (pre ++ t :: post) =
      Except.ok (af_ai_deep_supported_ipv t.ai) := by
  induction pre with
  | nil => simp [riv_find_pivot, ht0, ht1]
  | cons x rest ih =>
    have hx := hpre x (List.mem_cons_self x rest)
    have hrec := ih (fun it hit => hpre it (List.mem_cons_of_mem x hit))
    simp [riv_find_pivot, hx, hrec]

/-- Helper: the pivot check loop succeeds when every target deep-supports 0
or the pivot family. -/
theorem riv_check_pivot_ok (pv : Int) (l : List AiItem) (hpv : pv ≠ -1)
    (h : ∀ it ∈ l, af_ai_deep_supported_ipv it.ai = 0 ∨
      af_ai_deep_supported_ipv it.ai = pv) :
    riv_check_pivot pv l = Except.ok () := by
  induction l with
  | nil => rfl
  | cons x rest ih =>
    have hx := h x (List.mem_cons_self x rest)
    have hrec := ih (fun it hit => h it (List.mem_cons_of_mem x hit))
    rcases hx with hx | hx <;> simp [riv_check_pivot, hx, hpv, hrec]

/-- Helper: the pivot check loop stops with a mismatch error at the first
target that strictly supports a family different from the pivot. -/
theorem riv_check_pivot_err (pv : Int) (pre post : List AiItem) (u : AiItem)
    (hpre : ∀ it ∈ pre, af_ai_deep_supported_ipv it.ai = 0 ∨
      af_ai_deep_supported_ipv it.ai = pv)
    (hpv : pv ≠ -1)
    (hu1 : af_ai_deep_supported_ipv u.ai ≠ -1)
    (hu : ¬(af_ai_deep_supported_ipv u.ai = 0 ∨
      af_ai_deep_supported_ipv u.ai = pv)) :
    riv_check_pivot pv (pre ++ u :: post) =
      Except.error (Err.pivotMismatch u.host_name pv) := by
  push_neg at hu
  induction pre with
  | nil => simp [riv_check_pivot, hu1, hu.1, hu.2]
  | cons x rest ih =>
    have hx := hpre x (List.mem_cons_self x rest)
    have hrec := ih (fun it hit => hpre it (List.mem_cons_of_mem x hit))
    rcases hx with hx | hx <;> simp [riv_check_pivot, hx, hpv, hrec]

/-- Helper: the step-3 tail returns 0 when every target deep-supports both
families. -/
theorem return_ip_ver_nomcast_all0 (l : List AiItem)
    (h : ∀ it ∈ l, af_ai_deep_supported_ipv it.ai = 0) :
    return_ip_ver_nomcast l = Except.ok 0 := by
  simp [return_ip_ver_nomcast, riv_find_pivot_all0 l h]

/-- Helper: the step-3 tail returns the pivot family when every target
deep-supports 0 or the pivot. -/
theorem return_ip_ver_nomcast_pivot_ok (pre post : List AiItem) (t : AiItem)
    (hpre : ∀ it ∈ pre, af_ai_deep_supported_ipv it.ai = 0)
    (ht0 : af_ai_deep_supported_ipv t.ai ≠ 0)
    (ht1 : af_ai_deep_supported_ipv t.ai ≠ -1)
    (hall : ∀ it ∈ pre ++ t :: post, af_ai_deep_supported_ipv it.ai = 0 ∨
      af_ai_deep_supported_ipv it.ai = af_ai_deep_supported_ipv t.ai) :
    return_ip_ver_nomcast (pre ++ t :: post) =
      Except.ok (af_ai_deep_supported_ipv t.ai) := by
  rw [return_ip_ver_nomcast, riv_find_pivot_found pre post t hpre ht0 ht1]
  simp [ht0, riv_check_pivot_ok (af_ai_deep_supported_ipv t.ai) _ ht1 hall]

/-- Helper: the step-3 tail fails with a pivot mismatch at the first target
that strictly supports a family different from the pivot. -/
theorem return_ip_ver_nomcast_pivot_err (l : List AiItem)
    (pre post pre2 post2 : List AiItem) (t u : AiItem)
    (h1 : l = pre ++ t :: post) (h2 : l = pre2 ++ u :: post2)
    (hpre : ∀ it ∈ pre, af_ai_deep_supported_ipv it.ai = 0)
    (ht0 : af_ai_deep_supported_ipv t.ai ≠ 0)
    (ht1 : af_ai_deep_supported_ipv t.ai ≠ -1)
    (hpre2 : ∀ it ∈ pre2, af_ai_deep_supported_ipv it.ai = 0 ∨
      af_ai_deep_supported_ipv it.ai = af_ai_deep_supported_ipv t.ai)
    (hu1 : af_ai_deep_supported_ipv u.ai ≠ -1)
    (hu : ¬(af_ai_deep_supported_ipv u.ai = 0 ∨
      af_ai_deep_supported_ipv u.ai = af_ai_deep_supported_ipv t.ai)) :
    return_ip_ver_nomcast l =
      Except.error (Err.pivotMismatch u.host_name
        (af_ai_deep_supported_ipv t.ai)) := by
  have hfind : riv_find_pivot l = Except.ok (af_ai_deep_supported_ipv t.ai) := by
    rw [h1]
    exact riv_find_pivot_found pre post t hpre ht0 ht1
  have hcheck : riv_check_pivot (af_ai_deep_supported_ipv t.ai) l =
      Except.error (Err.pivotMismatch u.host_name
        (af_ai_deep_supported_ipv t.ai)) := by
    rw [h2]
    exact riv_check_pivot_err (af_ai_deep_supported_ipv t.ai) pre2 post2 u hpre2 ht1 hu1 hu
  rw [return_ip_ver_nomcast, hfind]
  simp [ht0, hcheck]

/-- Helper: with no forced family and no single-family multicast constraint,
return_ip_ver reduces to its step-3 tail. -/
theorem return_ip_ver_unconstrained_eq (resolve : Resolver) (m : Option String)
    (l : List AiItem)
    (hm : m = none ∨ ∃ s, m = some s ∧ af_ai_deep_supported_ipv (resolve s 0) = 0) :
    return_ip_ver resolve 0 m l = return_ip_ver_nomcast l := by
  rcases hm with hm | ⟨s, hm, hs⟩
  · subst hm
    rfl
  · subst hm
    have hne : resolve s 0 ≠ [] := ne_nil_of_dsf_eq_zero _ hs
    simp [return_ip_ver, af_host_to_ai, hne, hs]

/-- Claim C1: with no forced family and no constraining multicast (no label,
or a label deep-supporting both families), return_ip_ver returns 0 when
every target deep-supports both families; otherwise, with the pivot being
the deep-supported family of the first target whose deep-supported family is
non-zero, it returns the pivot when every target deep-supports 0 or the
pivot, and fails fatally naming the first target whose non-zero
deep-supported family differs from the pivot. -/
theorem return_ip_ver_pivot_cases (resolve : Resolver) (m : Option String)
    (l : List AiItem)
    (hm : m = none ∨ ∃ s, m = some s ∧ af_ai_deep_supported_ipv (resolve s 0) = 0)
    (hres : ∀ it ∈ l, af_ai_deep_supported_ipv it.ai ≠ -1) :
    ((∀ it ∈ l, af_ai_deep_supported_ipv it.ai = 0) →
      return_ip_ver resolve 0 m l = Except.ok 0) ∧
    (∀ pre t post, l = pre ++ t :: post →
      (∀ it ∈ pre, af_ai_deep_supported_ipv it.ai = 0) →
      af_ai_deep_supported_ipv t.ai ≠ 0 →
      ((∀ it ∈ l, af_ai_deep_supported_ipv it.ai = 0 ∨
          af_ai_deep_supported_ipv it.ai = af_ai_deep_supported_ipv t.ai) →
        return_ip_ver resolve 0 m l =
          Except.ok (af_ai_deep_supported_ipv t.ai)) ∧
      (∀ pre2 u post2, l = pre2 ++ u :: post2 →
        (∀ it ∈ pre2, af_ai_deep_supported_ipv it.ai = 0 ∨
          af_ai_deep_supported_ipv it.ai = af_ai_deep_supported_ipv t.ai) →
        ¬(af_ai_deep_supported_ipv u.ai = 0 ∨
          af_ai_deep_supported_ipv u.ai = af_ai_deep_supported_ipv t.ai) →
        return_ip_ver resolve 0 m l =
          Except.error (Err.pivotMismatch u.host_name
            (af_ai_deep_supported_ipv t.ai)))) := by
  rw [return_ip_ver_unconstrained_eq resolve m l hm]
  constructor
  · intro hall
    exact return_ip_ver_nomcast_all0 l hall
  · intro pre t post hdec hpre ht0
    have ht1 : af_ai_deep_supported_ipv t.ai ≠ -1 :=
      hres t (by rw [hdec]; simp)
    constructor
    · intro hall
      rw [hdec]
      exact return_ip_ver_nomcast_pivot_ok pre post t hpre ht0 ht1
        (fun it hit => hall it (by rw [hdec]; exact hit))
    · intro pre2 u post2 hdec2 hpre2 hu
      have hu1 : af_ai_deep_supported_ipv u.ai ≠ -1 :=
        hres u (by rw [hdec2]; simp)
      exact return_ip_ver_nomcast_pivot_err l pre post pre2 post2 t u
        hdec hdec2 hpre ht0 ht1 hpre2 hu1 hu

/-- Witness for C1: two targets that both deep-support only IPv4 negotiate
family 4 with no multicast label. -/
theorem return_ip_ver_pivot_cases_witness :
    return_ip_ver resolver0 0 none [itemA, itemB] = Except.ok 4 := by
  have h := ((return_ip_ver_pivot_cases resolver0 none [itemA, itemB]
    (Or.inl rfl) (by decide)).2 [] itemA [itemB] rfl (by simp) (by decide)).1 (by decide)
  exact h

/-- Claim C2: with no forced family and a supplied multicast label, if the
label deep-supports neither family the negotiation fails naming the
multicast address; if it deep-supports exactly one family, every target must
deep-support 0 or that family (then it is returned), and the first target
strictly supporting a different family is a fatal error naming that target
and both families. -/
theorem return_ip_ver_mcast_cases (resolve : Resolver) (m : String)
    (l : List AiItem) :
    (af_ai_deep_supported_ipv (resolve m 0) = -1 → resolve m 0 ≠ [] →
      return_ip_ver resolve 0 (some m) l =
        Except.error (Err.mcastNoFamily m)) ∧
    ((af_ai_deep_supported_ipv (resolve m 0) = 4 ∨
        af_ai_deep_supported_ipv (resolve m 0) = 6) →
      ((∀ it ∈ l, af_ai_deep_supported_ipv it.ai = 0 ∨
          af_ai_deep_supported_ipv it.ai = af_ai_deep_supported_ipv (resolve m 0)) →
        return_ip_ver resolve 0 (some m) l =
          Except.ok (af_ai_deep_supported_ipv (resolve m 0))) ∧
      (∀ pre u post, l = pre ++ u :: post →
        (∀ it ∈ pre, af_ai_deep_supported_ipv it.ai = 0 ∨
          af_ai_deep_supported_ipv it.ai = af_ai_deep_supported_ipv (resolve m 0)) →
        af_ai_deep_supported_ipv u.ai ≠ -1 →
        ¬(af_ai_deep_supported_ipv u.ai = 0 ∨
          af_ai_deep_supported_ipv u.ai = af_ai_deep_supported_ipv (resolve m 0)) →
        return_ip_ver resolve 0 (some m) l =
          Except.error (Err.mcastFamilyMismatch
            (af_ai_deep_supported_ipv (resolve m 0)) u.host_name
            (af_ai_deep_supported_ipv u.ai)))) := by
  constructor
  · intro hneg hne
    simp [return_ip_ver, af_host_to_ai, hne, hneg]
  · intro hmv
    have hmneg : af_ai_deep_supported_ipv (resolve m 0) ≠ -1 := by
      rcases hmv with h | h <;> rw [h] <;> decide
    have hm0 : af_ai_deep_supported_ipv (resolve m 0) ≠ 0 := by
      rcases hmv with h | h <;> rw [h] <;> decide
    have hne : resolve m 0 ≠ [] := by
      intro h
      rw [h] at hmneg
      exact hmneg rfl
    constructor
    · intro hall
      have hchk := riv_check_mcast_ok (af_ai_deep_supported_ipv (resolve m 0)) l
        hmneg hall
      simp [return_ip_ver, af_host_to_ai, hne, hmneg, hm0, hchk]
    · intro pre u post hdec hpre hu1 hu
      have hchk : riv_check_mcast (af_ai_deep_supported_ipv (resolve m 0)) l =
          Except.error (Err.mcastFamilyMismatch
            (af_ai_deep_supported_ipv (resolve m 0)) u.host_name
            (af_ai_deep_supported_ipv u.ai)) := by
        rw [hdec]
        exact riv_check_mcast_err (af_ai_deep_supported_ipv (resolve m 0))
          pre post u hpre hmneg hu1 hu
      simp [return_ip_ver, af_host_to_ai, hne, hmneg, hm0, hchk]

/-- Concrete IPv4 candidate shared by every label under resolverG. -/
def saG : SockAddr := { fam := Fam.v4, addr := 5, port := 0 }

/-- Resolver mapping every label to one IPv4 address with deep-supported
family 4, used to instantiate the multicast negotiation statement. -/
def resolverG : Resolver := fun _ _ => [saG]

/-- Witness for C2: a multicast label deep-supporting only IPv4 forces
family 4 over a target that deep-supports only IPv4. -/
theorem return_ip_ver_mcast_cases_witness :
    return_ip_ver resolverG 0 (some "group") [itemA] = Except.ok 4 := by
  have h := ((return_ip_ver_mcast_cases resolverG "group" [itemA]).2
    (Or.inl rfl)).1 (by decide)
  exact h

/-- Helper: two candidate sets deep-match exactly when some concrete address
occurs in both. -/
theorem ai_deep_eq_match_iff (x y : List SockAddr) :
    ai_deep_eq_match x y = true ↔ ∃ c, c ∈ x ∧ c ∈ y := by
  constructor
  · intro h
    simp only [ai_deep_eq_match, List.any_eq_true, decide_eq_true_eq] at h
    obtain ⟨a, hax, b, hby, hab⟩ := h
    exact ⟨a, hax, hab ▸ hby⟩
  · rintro ⟨c, hcx, hcy⟩
    simp only [ai_deep_eq_match, List.any_eq_true, decide_eq_true_eq]
    exact ⟨c, hcx, c, hcy, rfl⟩

/-- Helper: a nonempty candidate set deep-matches itself. -/
theorem ai_deep_eq_match_self (s : List SockAddr) (hs : s ≠ []) :
    ai_deep_eq_match s s = true := by
  cases s with
  | nil => exact absurd rfl hs
  | cons x t => exact (ai_deep_eq_match_iff _ _).2 ⟨x, List.mem_cons_self x t, List.mem_cons_self x t⟩

/-- Helper: not being in the list means deep-matching no item of it. -/
theorem af_is_ai_in_list_eq_false (s : List SockAddr) (l : List AiItem)
    (h : af_is_ai_in_list s l = false) :
    ∀ it ∈ l, ai_deep_eq_match s it.ai = false := by
  intro it hit
  have := List.any_eq_false.mp h it hit
  exact Bool.not_eq_true _ ▸ (by simpa using this)

/-- Helper: a candidate set containing a loopback candidate is nonempty. -/
theorem loopback_ne_nil (s : List SockAddr)
    (h : af_ai_deep_is_loopback s = true) : s ≠ [] := by
  intro hs
  rw [hs] at h
  exact absurd h (by decide)

/-- Helper: the target-collection loop over concatenated arguments runs the
first block to completion before the second. -/
theorem pra_loop_append (resolve : Resolver) (ip : Int) (xs ys : List String)
    (acc : List AiItem) :
    pra_loop resolve ip (xs ++ ys) acc =
      match pra_loop resolve ip xs acc with
      | Except.error e => Except.error e
      | Except.ok acc2 => pra_loop resolve ip ys acc2 := by
  induction xs generalizing acc with
  | nil => simp [pra_loop]
  | cons a rest ih =>
    simp only [List.cons_append, pra_loop]
    cases af_host_to_ai resolve a ip with
    | error e => rfl
    | ok ai_res =>
      cases h1 : af_is_ai_in_list ai_res acc with
      | true => simp [h1, ih]
      | false =>
        cases h2 : af_ai_deep_is_loopback ai_res with
        | true => simp [h1, h2]
        | false => simp [h1, h2, ih]

/-- Helper invariant of the target-collection loop: the accumulated list only
grows at the tail, new entries come from the argument strings in order, and
every appended entry deep-matches neither the prior accumulator entries nor
each other. -/
theorem pra_loop_invariant (resolve : Resolver) (ip : Int) (args : List String)
    (acc L : List AiItem) (hok : pra_loop resolve ip args acc = Except.ok L) :
    ∃ ext, L = acc ++ ext ∧
      (ext.map AiItem.host_name).Sublist args ∧
      (∀ e ∈ ext, ∀ x ∈ acc, ai_deep_eq_match e.ai x.ai = false) ∧
      List.Pairwise (fun x y => ai_deep_eq_match y.ai x.ai = false) ext := by
  induction args generalizing acc with
  | nil =>
    have hacc : acc = L := by simpa [pra_loop] using hok
    subst hacc
    exact ⟨[], by simp, by simp, by simp, by simp⟩
  | cons a rest ih =>
    simp only [pra_loop] at hok
    split at hok
    · exact absurd hok (by simp)
    · rename_i ai_res haf
      by_cases h1 : af_is_ai_in_list ai_res acc = true
      · rw [if_pos h1] at hok
        obtain ⟨ext, hL, hsub, hdisj, hpw⟩ := ih acc hok
        exact ⟨ext, hL, hsub.cons a, hdisj, hpw⟩
      · rw [if_neg h1] at hok
        have h1f : af_is_ai_in_list ai_res acc = false := by simpa using h1
        by_cases h2 : af_ai_deep_is_loopback ai_res = true
        · rw [if_pos h2] at hok
          exact absurd hok (by simp)
        · rw [if_neg h2] at hok
          obtain ⟨ext, hL, hsub, hdisj, hpw⟩ :=
            ih (acc ++ [{ host_name := a, ai := ai_res, sas := none }]) hok
          have hnew := af_is_ai_in_list_eq_false ai_res acc h1f
          refine ⟨{ host_name := a, ai := ai_res, sas := none } :: ext, ?_, ?_, ?_, ?_⟩
          · rw [hL, List.append_assoc, List.singleton_append]
          · simpa using hsub.cons₂ a
          · intro e he x hx
            rcases List.mem_cons.mp he with he | he
            · subst he
              exact hnew x hx
            · exact hdisj e he x (List.mem_append_left _ hx)
          · refine List.Pairwise.cons ?_ hpw
            intro y hy
            exact hdisj y hy _ (List.mem_append_right _ (List.mem_cons_self _ _))

/-- Claim C7: a successful target collection yields a list whose labels are a
subsequence of the argument strings (first-occurrence order preserved) and in
which no two targets share a concrete resolved address across any of their
candidates; in particular two distinct labels resolving to the same candidate
set produce a one-element list keeping the first label. -/
theorem parse_remote_addrs_dedup (resolve : Resolver) (ip : Int) :
    (∀ argv L, parse_remote_addrs resolve argv ip = Except.ok L →
      (L.map AiItem.host_name).Sublist argv ∧
      List.Pairwise (fun x y => ∀ c, c ∈ x.ai → c ∈ y.ai → False) L) ∧
    (∀ a b s, a ≠ b → resolve a ip = s → resolve b ip = s → s ≠ [] →
      af_ai_deep_is_loopback s = false →
      parse_remote_addrs resolve [a, b] ip =
        Except.ok [{ host_name := a, ai := s, sas := none }]) := by
  constructor
  · intro argv L hok
    have hloop : pra_loop resolve ip argv [] = Except.ok L := by
      simp only [parse_remote_addrs] at hok
      split at hok
      · exact absurd hok (by simp)
      · rename_i l hp
        by_cases hl : l.length < 1
        · rw [if_pos hl] at hok
          exact absurd hok (by simp)
        · rw [if_neg hl] at hok
          rw [hp]
          exact hok
    obtain ⟨ext, hL, hsub, _, hpw⟩ := pra_loop_invariant resolve ip argv [] L hloop
    simp only [List.nil_append] at hL
    subst hL
    refine ⟨hsub, hpw.imp ?_⟩
    intro x y hxy c hcx hcy
    have : ai_deep_eq_match y.ai x.ai = true :=
      (ai_deep_eq_match_iff _ _).2 ⟨c, hcy, hcx⟩
    rw [hxy] at this
    exact absurd this (by simp)
  · intro a b s hab ha hb hs hlb
    have hself : ai_deep_eq_match s s = true := ai_deep_eq_match_self s hs
    simp [parse_remote_addrs, pra_loop, af_host_to_ai, ha, hb, hs, hlb,
      af_is_ai_in_list, hself]

/-- Witness for C7: two distinct labels resolving to the same address give a
one-element target list holding the first label. -/
theorem parse_remote_addrs_dedup_witness :
    parse_remote_addrs resolverG ["first", "second"] 0 =
      Except.ok [{ host_name := "first", ai := [saG], sas := none }] :=
  (parse_remote_addrs_dedup resolverG 0).2 "first" "second"
    [saG] (by decide) rfl rfl (by decide) (by decide)

/-- Claim C8: an argument whose resolved candidate set is loopback and is not
a duplicate of the already-collected list aborts target collection with the
loopback diagnostic naming that argument, exit status 1; the combined
cli_parse sequence fails the same way for every multicast label, so IP
negotiation never influences the outcome (it is never reached). -/
theorem parse_loopback_before_negotiation (resolve : Resolver) (ip : Int)
    (pre post : List String) (a : String) (L : List AiItem)
    (hpre : pra_loop resolve ip pre [] = Except.ok L)
    (hlb : af_ai_deep_is_loopback (resolve a ip) = true)
    (hdup : af_is_ai_in_list (resolve a ip) L = false) :
    parse_remote_addrs resolve (pre ++ a :: post) ip =
        Except.error (Err.loopback a) ∧
      (∀ m, cli_parse_addrs resolve ip m (pre ++ a :: post) =
        Except.error (Err.loopback a)) ∧
      (Err.loopback a).exitCode = 1 := by
  have hne := loopback_ne_nil _ hlb
  have hloop : pra_loop resolve ip (pre ++ a :: post) [] =
      Except.error (Err.loopback a) := by
    rw [pra_loop_append, hpre]
    simp [pra_loop, af_host_to_ai, hne, hdup, hlb]
  have hparse : parse_remote_addrs resolve (pre ++ a :: post) ip =
      Except.error (Err.loopback a) := by
    simp [parse_remote_addrs, hloop]
  exact ⟨hparse, fun m => by simp [cli_parse_addrs, hparse], rfl⟩

/-- Resolver where the label lo resolves to the IPv4 loopback 127.0.0.1 and
every other label to an ordinary IPv4 address. -/
def resolverLB : Resolver := fun lbl _ =>
  if lbl = "lo" then [{ fam := Fam.v4, addr := 127 * 2 ^ 24 + 1, port := 0 }]
  else [{ fam := Fam.v4, addr := 1, port := 0 }]

/-- Witness for C8: the loopback argument lo after an ordinary argument kills
the run before negotiation, whatever the multicast label. -/
theorem parse_loopback_before_negotiation_witness :
    parse_remote_addrs resolverLB ["h", "lo"] 0 =
        Except.error (Err.loopback "lo") ∧
      cli_parse_addrs resolverLB 0 (some "anything") ["h", "lo"] =
        Except.error (Err.loopback "lo") ∧
      (Err.loopback "lo").exitCode = 1 := by
  have h := parse_loopback_before_negotiation resolverLB 0 ["h"] [] "lo"
    [{ host_name := "h", ai := [{ fam := Fam.v4, addr := 1, port := 0 }], sas := none }]
    (by rfl) (by decide) (by decide)
  exact ⟨h.1, h.2.1 (some "anything"), h.2.2⟩

/-- Helper: once the accumulated list deep-matches the common candidate set,
every further argument resolving to that set is silently discarded. -/
theorem pra_loop_all_dup (resolve : Resolver) (ip : Int) (rest : List String)
    (acc : List AiItem) (s : List SockAddr)
    (hall : ∀ x ∈ rest, resolve x ip = s) (hs : s ≠ [])
    (hin : af_is_ai_in_list s acc = true) :
    pra_loop resolve ip rest acc = Except.ok acc := by
  induction rest with
  | nil => rfl
  | cons x r ih =>
    have hx : resolve x ip = s := hall x (List.mem_cons_self x r)
    have hrec := ih (fun y hy => hall y (List.mem_cons_of_mem x hy))
    simp [pra_loop, af_host_to_ai, hx, hs, hin, hrec]

/-- Claim C10: the single-target flag is computed from the deduplicated list,
not from the argument count: when several distinct argument strings all
resolve to the same (non-loopback) candidate set, target collection yields
the same one-element list as a single argument would, and local-address
extraction sets the flag and keeps that sole entry. -/
theorem single_target_from_dedup (resolve : Resolver) (ip : Int) (a : String)
    (rest : List String) (s : List SockAddr) (ifa : IfAddr)
    (hall : ∀ x ∈ a :: rest, resolve x ip = s) (hs : s ≠ [])
    (hlb : af_ai_deep_is_loopback s = false) (hfam : ifa.fam ≠ Fam.other) :
    parse_remote_addrs resolve (a :: rest) ip =
        Except.ok [{ host_name := a, ai := s, sas := none }] ∧
      parse_remote_addrs resolve [a] ip =
        Except.ok [{ host_name := a, ai := s, sas := none }] ∧
      ∃ la, conv_local_addr [{ host_name := a, ai := s, sas := none }] 0 ifa =
        Except.ok (la, true, [{ host_name := a, ai := s, sas := none }]) := by
  have ha : resolve a ip = s := hall a (List.mem_cons_self a rest)
  have hin : af_is_ai_in_list s [{ host_name := a, ai := s, sas := none }] = true := by
    simp [af_is_ai_in_list, ai_deep_eq_match_self s hs]
  have hdup := pra_loop_all_dup resolve ip rest
    [{ host_name := a, ai := s, sas := none }] s
    (fun y hy => hall y (List.mem_cons_of_mem a hy)) hs hin
  refine ⟨?_, ?_, ?_⟩
  · simp [parse_remote_addrs, pra_loop, af_host_to_ai, ha, hs, hlb,
      af_is_ai_in_list, hdup]
  · simp [parse_remote_addrs, pra_loop, af_host_to_ai, ha, hs, hlb,
      af_is_ai_in_list]
  · have heq : conv_local_addr [{ host_name := a, ai := s, sas := none }] 0 ifa =
        Except.ok (local_addr_of [{ host_name := a, ai := s, sas := none }] 0 ifa,
          true, [{ host_name := a, ai := s, sas := none }]) := by
      simp [conv_local_addr, local_addr_of, local_sa_of, hfam]
    exact ⟨_, heq⟩

/-- Witness for C10: three distinct argument strings all resolving to the
same IPv4 address behave exactly like a single argument, and the extraction
keeps the sole entry with the flag set. -/
theorem single_target_from_dedup_witness :
    parse_remote_addrs resolverG ["x", "y", "z"] 0 =
        Except.ok [{ host_name := "x", ai := [saG], sas := none }] ∧
      parse_remote_addrs resolverG ["x"] 0 =
        Except.ok [{ host_name := "x", ai := [saG], sas := none }] ∧
      ∃ la, conv_local_addr [{ host_name := "x", ai := [saG], sas := none }] 0 ifa4 =
        Except.ok (la, true, [{ host_name := "x", ai := [saG], sas := none }]) := by
  have h := single_target_from_dedup resolverG 0 "x" ["y", "z"]
    [saG] ifa4 (fun x hx => rfl) (by decide) (by decide) (by decide)
  exact ⟨h.1, h.2.1, h.2.2⟩

end Cmping
